import Mathlib

/-!
Verification of the Markdown-to-notebook conversion pipeline of the
Mastering-New-Python-Libraries repository.

The embedding models, over `List Char`:
  * the fenced-block scanner of `parse_markdown_file`
    (regex `` ```(\w+)?\n(.*?)``` `` with `re.DOTALL`, scanned left to
    right, non-overlapping, lazy body),
  * the block classifier (the `if`/`elif`/`else` chain on the language tag
    and stripped body),
  * cell construction with source anchors, import-remediation lines and the
    `pkg_resources` guard rewriting,
  * `process_shell_commands`, `add_setup_cell`, `add_toc_cell`,
  * the cell filter and boolean result of `validate_notebook`
    (`validate_notebook.py`), with notebook execution abstracted as an
    oracle returning `Except`,
  * the REPL-prompt stripping stage of `validate_python_syntax`
    (`test_code_blocks.py`).
-/

/-- Characters of a string literal, used to embed Python string constants. -/
def sl (s : String) : List Char := s.toList

/-- Python `str.strip` whitespace set (ASCII). -/
def isPySpace (c : Char) : Bool :=
  c = ' ' || c = '\t' || c = '\n' || c = '\r' || c = '\x0b' || c = '\x0c'

/-- Python `str.strip()`: drop leading and trailing whitespace. -/
def pyStrip (s : List Char) : List Char :=
  ((s.dropWhile isPySpace).reverse.dropWhile isPySpace).reverse

/-- `listStarts p s` holds when `p` is an initial run of `s`
(Python `str.startswith`). -/
def listStarts : List Char → List Char → Bool
  | [], _ => true
  | _ :: _, [] => false
  | p :: ps, c :: cs => p = c && listStarts ps cs

/-- `listHas p s` holds when `p` occurs contiguously inside `s`
(Python `in` on strings). -/
def listHas : List Char → List Char → Bool
  | pat, [] => listStarts pat []
  | pat, c :: cs => listStarts pat (c :: cs) || listHas pat cs

/-- Python `str.lower` on ASCII text. -/
def lowerL (s : List Char) : List Char := s.map Char.toLower

/-- Python `str.split('\n')`: split at every newline, keeping empty pieces. -/
def splitNl : List Char → List (List Char)
  | [] => [[]]
  | c :: cs =>
    if c = '\n' then [] :: splitNl cs
    else
      match splitNl cs with
      | [] => [[c]]
      | l :: ls => (c :: l) :: ls

/-- Python `'\n'.join`. -/
def joinNl (ls : List (List Char)) : List Char := List.intercalate (sl "\n") ls

/-- Concatenation of a list of character lists. -/
def catLists : List (List Char) → List Char
  | [] => []
  | l :: ls => l ++ catLists ls

/-- Python `list.insert i x`: the index is clamped to the list length. -/
def pyInsert {α : Type} (i : Nat) (a : α) (l : List α) : List α :=
  l.take i ++ a :: l.drop i

/-- Python regex `\w` on ASCII text: letters, digits and underscore. -/
def isWordChar (c : Char) : Bool := c.isAlphanum || c = '_'

/-- The three-backtick fence delimiter. -/
def tick3 : List Char := sl "```"

/-- Fenced-block scanner: raw segments of one regex match.
`pre` is the raw text between the previous match and this one, `tag` the
optional language word, `body` the raw (untrimmed) fenced body. -/
structure Block where
  pre : List Char
  tag : List Char
  body : List Char
deriving DecidableEq

/-- Split `v` at the first occurrence of a closing fence: the lazy `(.*?)```" `
part of the scanner regex.  Returns the body before the first "```" and the
text after it. -/
def splitClose : List Char → Option (List Char × List Char)
  | [] => none
  | c :: w =>
    if listStarts tick3 (c :: w) then some ([], w.drop 2)
    else (splitClose w).map (fun p => (c :: p.1, p.2))

/-- One attempt of the scanner regex `` ```(\w+)?\n(.*?)``` `` anchored at the
head of `s`: requires "```", then the maximal word run (the optional tag; the
regex can only match with the maximal run, since a shorter run would be
followed by a word character, not the required newline), then a newline, then
the lazy body up to the first closing "```".  Returns `(tag, body, rest)`. -/
def matchFenceAt (s : List Char) : Option (List Char × List Char × List Char) :=
  if listStarts tick3 s then
    match (s.drop 3).dropWhile isWordChar with
    | c :: v =>
      if c = '\n' then
        (splitClose v).map (fun p => ((s.drop 3).takeWhile isWordChar, p.1, p.2))
      else none
    | [] => none
  else none

/-- Prepend one character of inter-block text: it lands in the `pre` of the
next block when one follows, otherwise in the trailing text. -/
def consPre (c : Char) : List Block × List Char → List Block × List Char
  | ([], tail) => ([], c :: tail)
  | (b :: bs, tail) => ({ b with pre := c :: b.pre } :: bs, tail)

/-- `re.finditer` of the scanner pattern, left to right and non-overlapping:
at each position try a match; on failure advance one character.  The fuel
argument bounds the recursion; `scanDoc` supplies the document length, which
is sufficient because every step consumes at least one character. -/
def scanFuel : Nat → List Char → List Block × List Char
  | _, [] => ([], [])
  | 0, s => ([], s)
  | Nat.succ f, c :: cs =>
    match matchFenceAt (c :: cs) with
    | some (w, body, rest) =>
      let p := scanFuel f rest
      ({ pre := [], tag := w, body := body } :: p.1, p.2)
    | none => consPre c (scanFuel f cs)

/-- Scan a whole document for fenced blocks. -/
def scanDoc (s : List Char) : List Block × List Char := scanFuel s.length s

/-- The three target representations decided by the block classifier. -/
inductive Kind
  | code
  | shell
  | markdown
deriving DecidableEq

/-- The classifier chain of `parse_markdown_file`, with the interactive-marker
test on the body abstracted as `marker`: python/py tag first (markdown when the
marker fires, code otherwise), then the shell branch
(`language.lower() in ['bash','shell','sh','zsh'] or '$' in code_content`),
otherwise markdown. -/
def classifyGen (marker : List Char → Bool) (language body : List Char) : Kind :=
  if lowerL language = sl "python" ∨ lowerL language = sl "py" then
    if marker body then Kind.markdown else Kind.code
  else if lowerL language = sl "bash" ∨ lowerL language = sl "shell" ∨
      lowerL language = sl "sh" ∨ lowerL language = sl "zsh" ∨
      listHas (sl "$") body = true then
    Kind.shell
  else Kind.markdown

/-- The block classifier of the source: the interactive marker is
`'>>>' in code_content`, a substring test. -/
def classify (language body : List Char) : Kind :=
  classifyGen (fun b => listHas (sl ">>>") b) language body

/-- The classifier as an ordered rule table, written from the specification:
rule 1 python-tag without marker, rule 2 python-tag with marker, rule 3
shell-tag, rule 4 dollar heuristic, rule 5 fallback; first match wins. -/
def classifyRules (marker : List Char → Bool) (language body : List Char) : Kind :=
  if (lowerL language = sl "python" ∨ lowerL language = sl "py") ∧ marker body = false then
    Kind.code
  else if (lowerL language = sl "python" ∨ lowerL language = sl "py") ∧ marker body = true then
    Kind.markdown
  else if lowerL language = sl "bash" ∨ lowerL language = sl "shell" ∨
      lowerL language = sl "sh" ∨ lowerL language = sl "zsh" then
    Kind.shell
  else if listHas (sl "$") body = true then Kind.shell
  else Kind.markdown

/-- Interactive-prompt marker as the specification defines it: some line of
the body begins with the three-character prompt. -/
def hasPromptLine (body : List Char) : Bool :=
  (splitNl body).any (fun l => listStarts (sl ">>>") l)

/-- A notebook cell.  `source_line` and `anchor` model the metadata triple
(`source_file` is the `anchor` up to the colon); `anchor = []` models a cell
whose metadata carries no `source_anchor` (the setup and TOC cells). -/
structure Cell where
  cell_type : List Char
  source_line : Nat
  anchor : List Char
  execution_count : Option Nat
  outputs : List (List Char)
  source : List (List Char)
deriving DecidableEq

/-- A default cell, used only as the `headD` fallback in closed statements. -/
def dCell : Cell :=
  { cell_type := [], source_line := 0, anchor := [], execution_count := none,
    outputs := [], source := [] }

/-- The anchor string `f"{file_path}:{start_line}"`. -/
def anchorOf (file : List Char) (line : Nat) : List Char :=
  file ++ ':' :: Nat.toDigits 10 line

/-- The HTML-comment anchor placed at the top of markdown cells. -/
def anchorMd (file : List Char) (line : Nat) : List Char :=
  sl "<!-- source:" ++ anchorOf file line ++ sl " -->\n"

/-- The comment anchor placed at the top of code cells. -/
def anchorCode (file : List Char) (line : Nat) : List Char :=
  sl "# [source:" ++ anchorOf file line ++ sl "]\n"

/-- A markdown cell built from prose text (the spans between fenced blocks
and the trailing remainder). -/
def mdCell (file : List Char) (line : Nat) (txt : List Char) : Cell :=
  { cell_type := sl "markdown", source_line := line, anchor := anchorOf file line,
    execution_count := none, outputs := [],
    source := anchorMd file line :: (splitNl txt).map (fun l => l ++ sl "\n") }

/-- The markdown cell produced for a python-tagged block containing REPL
prompts: the body is re-fenced as ```` ```python ````. -/
def replMdCell (file : List Char) (line : Nat) (cc : List Char) : Cell :=
  { cell_type := sl "markdown", source_line := line, anchor := anchorOf file line,
    execution_count := none, outputs := [],
    source := [anchorMd file line, sl "```python\n" ++ cc ++ sl "\n```"] }

/-- The markdown cell produced for a block with an unrecognized tag:
re-fenced with the original tag. -/
def otherMdCell (file : List Char) (line : Nat) (lang cc : List Char) : Cell :=
  { cell_type := sl "markdown", source_line := line, anchor := anchorOf file line,
    execution_count := none, outputs := [],
    source := [anchorMd file line, tick3 ++ lang ++ sl "\n" ++ cc ++ sl "\n" ++ tick3] }

/-- One import-remediation check: `if '<name>.' in code_content and
'import <name>' not in code_content: import_lines.append('import <name>\n')`,
instantiated in the source for os, sys, requests and inspect. -/
def impIf (name cc : List Char) : List (List Char) :=
  if listHas (name ++ sl ".") cc = true ∧ listHas (sl "import " ++ name) cc = false then
    [sl "import " ++ name ++ sl "\n"]
  else []

/-- The `obj` placeholder definition added when `obj.` is used undefined. -/
def objLines (cc : List Char) : List (List Char) :=
  if listHas (sl "obj.") cc = true ∧ listHas (sl "obj =") cc = false ∧
      listHas (sl "obj=") cc = false then
    [sl "obj = requests  # Example object for inspection\n"]
  else []

/-- The guarded `pkg_resources` import block added when the body mentions
`pkg_resources`. -/
def pkgImportLines (cc : List Char) : List (List Char) :=
  if listHas (sl "pkg_resources") cc = true then
    [sl "try:\n", sl "    import pkg_resources\n", sl "except ImportError:\n",
     sl "    print(\"pkg_resources not available - skipping package introspection\")\n",
     sl "    pkg_resources = None\n"]
  else []

/-- All remediation lines prepended to a python code cell, in source order. -/
def importLines (cc : List Char) : List (List Char) :=
  impIf (sl "os") cc ++ impIf (sl "sys") cc ++ impIf (sl "requests") cc ++
  impIf (sl "inspect") cc ++ objLines cc ++ pkgImportLines cc

/-- The `pkg_resources` guard rewriting of the body lines, with the
`in_pkg_block` flag threaded through the loop. -/
def pkgAux : Bool → List (List Char) → List (List Char)
  | _, [] => []
  | inPkg, l :: ls =>
    if listHas (sl "pkg_resources.") l = true then
      sl "if pkg_resources is not None:\n" :: (sl "    " ++ l ++ sl "\n") :: pkgAux true ls
    else if listStarts (sl "import pkg_resources") (pyStrip l) = true then
      pkgAux inPkg ls
    else if inPkg = true ∧ (listHas (sl "print(") l = true ∨ listHas (sl "dist.") l = true ∨
        listHas (sl "entry_points") l = true) then
      sl "if pkg_resources is not None:\n" :: (sl "    " ++ l ++ sl "\n") :: pkgAux false ls
    else (l ++ sl "\n") :: pkgAux false ls

/-- A python code cell: anchor comment, remediation lines, then the body lines
(guard-rewritten when `pkg_resources` occurs). -/
def codeCell (file : List Char) (line : Nat) (cc : List Char) : Cell :=
  { cell_type := sl "code", source_line := line, anchor := anchorOf file line,
    execution_count := none, outputs := [],
    source := anchorCode file line :: importLines cc ++
      (if listHas (sl "pkg_resources") cc = true then pkgAux false (splitNl cc)
       else (splitNl cc).map (fun l => l ++ sl "\n")) }

/-- A shell cell: anchor comment, `%%bash` magic, then the body lines. -/
def shellCell (file : List Char) (line : Nat) (cc : List Char) : Cell :=
  { cell_type := sl "code", source_line := line, anchor := anchorOf file line,
    execution_count := none, outputs := [],
    source := anchorCode file line :: sl "%%bash\n" ::
      (splitNl cc).map (fun l => l ++ sl "\n") }

/-- The loop body of `parse_markdown_file` over the scanner output.  `nl` is
the number of newline characters in the consumed prefix `content[:last_end]`;
`md_start_line = nl + 1` and `start_line` adds the newlines of the pre-span
(the scanner tag contains no newline, and the opening fence line contributes
one, so after a block `nl` advances by `count pre + 1 + count body`).  The
classified branch is the source `if`/`elif`/`else` chain, factored through
`classify`. -/
def cellsFrom (file : List Char) : Nat → List Block → List Char → List Cell
  | nl, [], tail =>
    if pyStrip tail = [] then []
    else [mdCell file (nl + 1) (pyStrip tail)]
  | nl, b :: bs, tail =>
    (if pyStrip b.pre = [] then [] else [mdCell file (nl + 1) (pyStrip b.pre)]) ++
    (match classify b.tag (pyStrip b.body) with
     | Kind.code => codeCell file (nl + b.pre.count '\n' + 1) (pyStrip b.body)
     | Kind.shell => shellCell file (nl + b.pre.count '\n' + 1) (pyStrip b.body)
     | Kind.markdown =>
       if lowerL b.tag = sl "python" ∨ lowerL b.tag = sl "py" then
         replMdCell file (nl + b.pre.count '\n' + 1) (pyStrip b.body)
       else otherMdCell file (nl + b.pre.count '\n' + 1) b.tag (pyStrip b.body)) ::
    cellsFrom file (nl + b.pre.count '\n' + 1 + b.body.count '\n') bs tail

/-- `parse_markdown_file` on already-read document text. -/
def parse_markdown_file (file doc : List Char) : List Cell :=
  cellsFrom file 0 (scanDoc doc).1 (scanDoc doc).2

/-- The comment `process_shell_commands` adds above the first command. -/
def commandComment (fc : List Char) : List Char :=
  if listStarts (sl "pip") fc = true then sl "# Install Python package\n"
  else if listStarts (sl "git") fc = true then sl "# Git command\n"
  else if listStarts (sl "python") fc = true then sl "# Run Python script\n"
  else sl "# Shell command\n"

/-- The per-cell body of the `process_shell_commands` loop: a code cell with a
non-empty source whose first element starts with `%%bash` gets an enhanced
source; every other cell is left untouched. -/
def enhanceShellCell (c : Cell) : Cell :=
  if c.cell_type = sl "code" ∧ c.source.isEmpty = false ∧
      listStarts (sl "%%bash") (c.source.headD []) = true then
    { c with source := sl "%%bash\n" ::
        (if 1 < c.source.length then [commandComment (pyStrip (c.source.getD 1 []))] else []) ++
        c.source.drop 1 ++
        [sl "\n# Note: If this command fails, you may need to install dependencies or adjust paths"] }
  else c

/-- `process_shell_commands`. -/
def process_shell_commands (cells : List Cell) : List Cell :=
  cells.map enhanceShellCell

/-- The fixed setup cell of `add_setup_cell`. -/
def setupCell : Cell :=
  { cell_type := sl "code", source_line := 0, anchor := [], execution_count := none,
    outputs := [],
    source := [sl "# Setup and Imports\n", sl "import sys\n", sl "import os\n",
      sl "from pathlib import Path\n", sl "\n",
      sl "# Enable shell magic for terminal commands\n",
      sl "# Note: %%bash magic is built into IPython/Jupyter\n", sl "\n",
      sl "# Set up display options\n",
      sl "from IPython.display import display, HTML\n", sl "\n",
      sl "# Configure notebook for better output\n", sl "import warnings\n",
      sl "warnings.filterwarnings(\x27ignore\x27)\n", sl "\n",
      sl "print(\"✅ Notebook setup complete!\")"] }

/-- The fixed table-of-contents cell of `add_toc_cell`. -/
def tocCell : Cell :=
  { cell_type := sl "markdown", source_line := 0, anchor := [], execution_count := none,
    outputs := [],
    source := [sl "# 📚 Mastering New Python Libraries\n", sl "\n",
      sl "## Interactive Notebook Version\n", sl "\n",
      sl "This notebook contains all the code examples from the README.md file. ",
      sl "You can run each cell interactively to explore Python libraries.\n", sl "\n",
      sl "### How to Use This Notebook:\n", sl "\n",
      sl "1. **Setup Cell**: Run the first cell to configure the environment\n",
      sl "2. **Code Cells**: Execute Python examples to see them in action\n",
      sl "3. **Terminal Cells**: Run shell commands with `%%bash` magic\n",
      sl "4. **Markdown Cells**: Read explanations and documentation\n", sl "\n",
      sl "---\n"] }

/-- `add_setup_cell`: `notebook['cells'].insert(0, setup_cell)`. -/
def add_setup_cell (cells : List Cell) : List Cell := pyInsert 0 setupCell cells

/-- `add_toc_cell`: `notebook['cells'].insert(1, toc_cell)`. -/
def add_toc_cell (cells : List Cell) : List Cell := pyInsert 1 tocCell cells

/-- The assembly step of `main`: optional setup cell first, optional TOC cell
second, mirroring the `--no-setup` / `--no-toc` flags. -/
def assembleCells (setup toc : Bool) (cells : List Cell) : List Cell :=
  let c1 := if setup then add_setup_cell cells else cells
  if toc then add_toc_cell c1 else c1

/-- The allow-list of known-problematic source anchors in
`validate_notebook.py`. -/
def problematicCells : List (List Char) :=
  [sl "README.md:216", sl "README.md:301", sl "README.md:488",
   sl "README.md:541", sl "README.md:559", sl "README.md:650"]

/-- The skip test of the `validate_notebook` filter loop: code cells
containing `%%bash`, `pkg_resources` or `import mcp`, or carrying an anchor
matching the problematic allow-list, are removed before execution. -/
def cellSkipped (c : Cell) : Bool :=
  c.cell_type = sl "code" &&
  ((c.source.any fun l => listHas (sl "%%bash") l) ||
   (c.source.any fun l => listHas (sl "pkg_resources") l) ||
   (c.source.any fun l => listHas (sl "import mcp") l) ||
   (!(c.anchor = ([] : List Char)) &&
     problematicCells.any fun p => listHas p c.anchor))

/-- The filtered cell list executed by `validate_notebook`. -/
def filterCells (cells : List Cell) : List Cell :=
  cells.filter (fun c => !cellSkipped c)

/-- `validate_notebook` from the loaded notebook onward.  The call
`ep.preprocess(test_notebook, ...)` into nbconvert is abstracted as the oracle
`exec`; `Except.ok` models a run without error and `Except.error` models a
raised exception, which the source catches, reports and converts to `False`. -/
def validate_notebook (exec : List Cell → Except (List Char) Unit)
    (cells : List Cell) : Bool :=
  match exec (filterCells cells) with
  | Except.ok _ => true
  | Except.error _ => false

/-- The line loop of the REPL-prompt stripping stage of
`validate_python_syntax`: each line is stripped, then prompt markers are
removed; other non-empty non-prompt lines are kept, the rest are dropped. -/
def replLines : List (List Char) → List (List Char)
  | [] => []
  | l :: ls =>
    if listStarts (sl ">>> ") (pyStrip l) = true then
      (pyStrip l).drop 4 :: replLines ls
    else if listStarts (sl "... ") (pyStrip l) = true then
      (pyStrip l).drop 4 :: replLines ls
    else if listStarts (sl "...") (pyStrip l) = true then
      (pyStrip l).drop 3 :: replLines ls
    else if pyStrip l ≠ [] ∧ listStarts (sl ">>>") (pyStrip l) = false ∧
        listStarts (sl "...") (pyStrip l) = false then
      pyStrip l :: replLines ls
    else replLines ls

/-- The text `validate_python_syntax` submits to `ast.parse`: the prompt
stripping is applied only when the body mentions a prompt marker. -/
def replStrip (code : List Char) : List Char :=
  if listHas (sl ">>>") code = true ∨ listHas (sl "...") code = true then
    joinNl (replLines (splitNl code))
  else code

/-- Per-line transform written from the corrected description of the prompt
stripping: applied to an already-stripped line; `none` means the line is
dropped. -/
def trimThenX (t : List Char) : Option (List Char) :=
  if listStarts (sl ">>> ") t = true then some (t.drop 4)
  else if listStarts (sl "... ") t = true then some (t.drop 4)
  else if listStarts (sl "...") t = true then some (t.drop 3)
  else if t ≠ [] ∧ listStarts (sl ">>>") t = false ∧ listStarts (sl "...") t = false then
    some t
  else none

/-- Raw delimiter-inclusive text of one scanner match together with its
pre-span: this is the exact extent the scanner consumed for the match. -/
def blockText (b : Block) : List Char :=
  b.pre ++ tick3 ++ b.tag ++ '\n' :: b.body ++ tick3

/-- Reassembly of a scan result from raw extents. -/
def blocksText (p : List Block × List Char) : List Char :=
  catLists (p.1.map blockText) ++ p.2

/-- Concatenation of STORED segment texts with the consumed delimiters, as
the partition property of the specification reads: stored prose and body
texts are the stripped spans. -/
def storedConcat (s : List Char) : List Char :=
  catLists ((scanDoc s).1.map (fun b =>
    pyStrip b.pre ++ tick3 ++ b.tag ++ '\n' :: pyStrip b.body ++ tick3)) ++
  pyStrip (scanDoc s).2

theorem listStarts_append (p s : List Char) (h : listStarts p s = true) :
    s = p ++ s.drop p.length := by
  induction p generalizing s with
  | nil => simp
  | cons a ps ih =>
    cases s with
    | nil => simp [listStarts] at h
    | cons c cs =>
      simp only [listStarts, Bool.and_eq_true, decide_eq_true_eq] at h
      obtain ⟨rfl, h2⟩ := h
      simpa using ih cs h2

theorem splitClose_append (v b r : List Char) (h : splitClose v = some (b, r)) :
    v = b ++ tick3 ++ r := by
  induction v generalizing b with
  | nil => simp [splitClose] at h
  | cons c w ih =>
    by_cases hs : listStarts tick3 (c :: w) = true
    · simp only [splitClose, hs, if_true, Option.some.injEq, Prod.mk.injEq] at h
      obtain ⟨rfl, rfl⟩ := h
      have := listStarts_append tick3 (c :: w) hs
      simpa [tick3, sl] using this
    · simp only [splitClose, hs, if_false, Option.map_eq_some', Bool.false_eq_true] at h
      obtain ⟨⟨b', r'⟩, hb, he⟩ := h
      simp only [Prod.mk.injEq] at he
      obtain ⟨rfl, rfl⟩ := he
      have := ih b' hb
      subst this
      simp

theorem matchFenceAt_append (s w bd r : List Char)
    (h : matchFenceAt s = some (w, bd, r)) :
    s = tick3 ++ w ++ '\n' :: (bd ++ tick3 ++ r) := by
  unfold matchFenceAt at h
  by_cases hs : listStarts tick3 s = true
  · simp only [hs, if_true] at h
    rcases hd : (s.drop 3).dropWhile isWordChar with _ | ⟨c, v⟩
    · simp [hd] at h
    · simp only [hd] at h
      by_cases hc : c = '\n'
      · subst hc
        simp only [if_true, Option.map_eq_some'] at h
        obtain ⟨⟨b', r'⟩, hb, he⟩ := h
        simp only [Prod.mk.injEq] at he
        obtain ⟨rfl, rfl, rfl⟩ := he
        have h1 : s = tick3 ++ s.drop 3 := by
          have := listStarts_append tick3 s hs
          simpa [tick3, sl] using this
        have h2 : s.drop 3 = (s.drop 3).takeWhile isWordChar ++ '\n' :: v := by
          conv_lhs => rw [← List.takeWhile_append_dropWhile (p := isWordChar) (l := s.drop 3)]
          rw [hd]
        have h3 := splitClose_append v b' r' hb
        calc s = tick3 ++ s.drop 3 := h1
          _ = tick3 ++ ((s.drop 3).takeWhile isWordChar ++ '\n' :: v) :=
            congrArg (tick3 ++ ·) h2
          _ = tick3 ++ ((s.drop 3).takeWhile isWordChar ++ '\n' :: (b' ++ tick3 ++ r')) := by
            rw [h3]
          _ = tick3 ++ (s.drop 3).takeWhile isWordChar ++ '\n' :: (b' ++ tick3 ++ r') := by
            simp
      · simp [hc] at h
  · simp [hs] at h

theorem consPre_text (c : Char) (p : List Block × List Char) :
    blocksText (consPre c p) = c :: blocksText p := by
  rcases p with ⟨bs, tail⟩
  cases bs with
  | nil => simp [consPre, blocksText, catLists]
  | cons b bs => simp [consPre, blocksText, catLists, blockText]

theorem scanFuel_text (f : Nat) (s : List Char) : blocksText (scanFuel f s) = s := by
  induction f generalizing s with
  | zero => cases s <;> simp [scanFuel, blocksText, catLists]
  | succ f ih =>
    cases s with
    | nil => simp [scanFuel, blocksText, catLists]
    | cons c cs =>
      rcases hm : matchFenceAt (c :: cs) with _ | ⟨w, bd, r⟩
      · have h1 := ih cs
        calc blocksText (scanFuel (Nat.succ f) (c :: cs))
            = blocksText (consPre c (scanFuel f cs)) := by rw [scanFuel, hm]
          _ = c :: blocksText (scanFuel f cs) := consPre_text c _
          _ = c :: cs := by rw [h1]
      · have h1 := ih r
        have h2 := matchFenceAt_append (c :: cs) w bd r hm
        calc blocksText (scanFuel (Nat.succ f) (c :: cs))
            = blockText { pre := [], tag := w, body := bd } ++ blocksText (scanFuel f r) := by
              rw [scanFuel, hm]
              simp [blocksText, catLists]
          _ = (tick3 ++ w ++ '\n' :: (bd ++ tick3)) ++ r := by
              rw [h1]; simp [blockText]
          _ = c :: cs := by rw [h2]; simp

theorem classifyGen_eq_rules (marker : List Char → Bool) (language body : List Char) :
    classifyGen marker language body = classifyRules marker language body := by
  unfold classifyGen classifyRules
  rcases hm : marker body <;> split_ifs <;> simp_all

/-- Claim C1: the block classifier is a total deterministic function of the
language tag and body, equal to the ordered five-rule table of the
specification (python tag without marker yields code, python tag with marker
yields markdown, shell-family tag yields shell, a dollar sign in the body of
any other block yields shell, everything else yields markdown; first match
wins).  The equality holds for every interactive-marker predicate, and in
particular for the substring marker the source uses. -/
theorem C1_classifier_rule_table :
    ∀ (marker : List Char → Bool) (language body : List Char),
      classifyGen marker language body = classifyRules marker language body ∧
      classify language body = classifyRules (fun b => listHas (sl ">>>") b) language body :=
  fun marker language body =>
    ⟨classifyGen_eq_rules marker language body,
     classifyGen_eq_rules (fun b => listHas (sl ">>>") b) language body⟩

/-- A document on which the stored-text partition fails: the prose span and
the fenced body are stored stripped of surrounding whitespace. -/
def doc2 : List Char := sl "a \n```python\nx\n```"

/-- Claim C2, as stated, is false: concatenating the STORED texts of the
segments of `doc2` with the consumed fence delimiters yields a string that
differs from the document, because storage strips the prose span "a \n" to
"a" and the body "x\n" to "x". -/
theorem C2_stored_concat_cx :
    storedConcat doc2 = sl "a```python\nx```" ∧ (storedConcat doc2 == doc2) = false := by
  decide

/-- Claim C2 (amended): the partition property holds for the RAW segment
extents: concatenating the untrimmed pre-spans, the consumed fence delimiters,
the tags and the untrimmed bodies of all matches, followed by the trailing
text, reconstructs every document exactly; the stored texts are these raw
spans trimmed of leading and trailing whitespace. -/
theorem C2_raw_partition : ∀ (s : List Char), blocksText (scanDoc s) = s :=
  fun s => scanFuel_text s.length s

/-- A concrete one-cell input for the assembly counterexample. -/
def sampleCell : Cell := mdCell (sl "README.md") 1 (sl "hello")

/-- Claim C4, as stated, is false: with Setup skipped and the TOC requested on
a one-unit input, the TOC cell is inserted at index 1 (after the unit), not at
index 0 as the claim demands. -/
theorem C4_toc_position_cx :
    assembleCells false true [sampleCell] = [sampleCell, tocCell] ∧
    (assembleCells false true [sampleCell] == [tocCell, sampleCell]) = false := by
  decide

/-- Claim C4 (amended): the Setup unit, when requested, is inserted at
position 0; the Table-of-Contents unit, when requested, is always inserted at
position 1 of the current list (which is position 0 only for an empty list),
even when Setup was skipped; with both requested an N-unit input yields an
(N+2)-unit container with Setup at index 0 and the TOC at index 1, and no
other reordering occurs. -/
theorem C4_insertion_positions :
    ∀ (cells : List Cell),
      assembleCells true true cells = setupCell :: tocCell :: cells ∧
      assembleCells true false cells = setupCell :: cells ∧
      assembleCells false false cells = cells ∧
      assembleCells false true cells = cells.take 1 ++ tocCell :: cells.drop 1 := by
  intro cells
  refine ⟨?_, ?_, ?_, ?_⟩ <;>
    simp [assembleCells, add_setup_cell, add_toc_cell, pyInsert]

/-- A python body in which the prompt characters occur only mid-line. -/
def body5 : List Char := sl "x = 1  # see >>> docs"

/-- Claim C5, as stated, is false: `body5` contains the prompt only mid-line
(no line begins with it), yet the classifier yields Markdown, not Code,
because the source tests `'>>>' in code_content`, a substring check. -/
theorem C5_midline_marker_cx :
    classify (sl "python") body5 = Kind.markdown ∧ hasPromptLine body5 = false := by
  decide

/-- Claim C5 (amended): for a tag normalizing to python or py the classifier
yields Markdown exactly when the prompt characters occur as a substring
ANYWHERE in the body, not only at the beginning of a line. -/
theorem C5_substring_marker :
    ∀ (tag body : List Char), lowerL tag = sl "python" ∨ lowerL tag = sl "py" →
      (classify tag body = Kind.markdown ↔ listHas (sl ">>>") body = true) := by
  intro tag body h
  rcases hb : listHas (sl ">>>") body <;> simp [classify, classifyGen, h, hb]

theorem C5_substring_marker_witness :
    classify (sl "python") (sl "hello >>> there") = Kind.markdown :=
  (C5_substring_marker (sl "python") (sl "hello >>> there")
    (Or.inl (by decide))).mpr (by decide)

theorem source_line_mdCell (f : List Char) (n : Nat) (t : List Char) :
    (mdCell f n t).source_line = n := rfl

theorem source_line_blockCell (f : List Char) (n : Nat) (b : Block) (cc : List Char) :
    (match classify b.tag cc with
     | Kind.code => codeCell f n cc
     | Kind.shell => shellCell f n cc
     | Kind.markdown =>
       if lowerL b.tag = sl "python" ∨ lowerL b.tag = sl "py" then replMdCell f n cc
       else otherMdCell f n b.tag cc).source_line = n := by
  rcases classify b.tag cc <;>
    first
      | rfl
      | (split_ifs <;> rfl)

theorem cellsFrom_lb (bs : List Block) :
    ∀ (tail file : List Char) (nl : Nat) (c : Cell),
      c ∈ cellsFrom file nl bs tail → nl + 1 ≤ c.source_line := by
  induction bs with
  | nil =>
    intro tail file nl c hc
    unfold cellsFrom at hc
    split_ifs at hc with h
    · simp at hc
    · simp only [List.mem_singleton] at hc
      subst hc
      simp [source_line_mdCell]
  | cons b bs ih =>
    intro tail file nl c hc
    unfold cellsFrom at hc
    simp only [List.mem_append, List.mem_cons] at hc
    rcases hc with hc | hc | hc
    · split_ifs at hc with h
      · simp at hc
      · simp only [List.mem_singleton] at hc
        subst hc
        simp [source_line_mdCell]
    · subst hc
      rw [source_line_blockCell]
      omega
    · have := ih tail file (nl + b.pre.count '\n' + 1 + b.body.count '\n') c hc
      omega

theorem cellsFrom_sorted (bs : List Block) :
    ∀ (tail file : List Char) (nl : Nat),
      List.Sorted (· ≤ ·) ((cellsFrom file nl bs tail).map (fun c => c.source_line)) := by
  induction bs with
  | nil =>
    intro tail file nl
    unfold cellsFrom
    split_ifs <;> simp
  | cons b bs ih =>
    intro tail file nl
    have hrec := ih tail file (nl + b.pre.count '\n' + 1 + b.body.count '\n')
    have hlb := cellsFrom_lb bs tail file (nl + b.pre.count '\n' + 1 + b.body.count '\n')
    unfold cellsFrom
    rw [List.map_append]
    unfold List.Sorted
    rw [List.pairwise_append]
    refine ⟨?_, ?_, ?_⟩
    · split_ifs <;> simp
    · rw [List.map_cons] at *
      rw [List.pairwise_cons]
      refine ⟨?_, hrec⟩
      intro x hx
      obtain ⟨c, hc, rfl⟩ := List.mem_map.mp hx
      have := hlb c hc
      rw [source_line_blockCell]
      omega
    · intro a ha x hx
      have ha' : a = nl + 1 := by
        split_ifs at ha with h
        · simp at ha
        · simp only [List.map_cons, List.map_nil, List.mem_singleton] at ha
          rw [ha, source_line_mdCell]
      subst ha'
      rw [List.map_cons, List.mem_cons] at hx
      rcases hx with hx | hx
      · rw [hx, source_line_blockCell]
        omega
      · obtain ⟨c, hc, rfl⟩ := List.mem_map.mp hx
        have := hlb c hc
        omega

/-- Claim C3: the source-line locators of the cells produced by
`parse_markdown_file` are non-decreasing in cell order, for every document;
each locator is the newline count of the consumed document prefix plus one,
as embedded in `cellsFrom`. -/
theorem C3_locator_monotone :
    ∀ (file doc : List Char),
      List.Sorted (· ≤ ·) ((parse_markdown_file file doc).map (fun c => c.source_line)) :=
  fun file doc => cellsFrom_sorted (scanDoc doc).1 (scanDoc doc).2 file 0

/-- A REPL body with an indented continuation line and a blank line. -/
def body6 : List Char := sl ">>> if x:\n    y = 1\n\nz"

/-- Claim C6, as stated, is false: the prompt stripping first strips EVERY
line of its surrounding whitespace and drops blank lines, so the indented
line loses its indentation and the blank line disappears; the claimed
pass-through output differs from the actual one. -/
theorem C6_strip_lines_cx :
    replStrip body6 = sl "if x:\ny = 1\nz" ∧
    (replStrip body6 == sl "if x:\n    y = 1\n\nz") = false := by
  decide

/-- Claim C6 (amended): the text submitted to the parser is obtained by first
trimming each line of leading and trailing whitespace and then transforming
the trimmed line: a trimmed line starting with the prompt-plus-space sequence
loses those four characters, likewise for the continuation prompt, a trimmed
line starting with the bare continuation prompt loses three characters, any
other non-empty trimmed line not starting with a prompt passes through in its
trimmed form, and blank lines and bare prompt lines are dropped. -/
theorem C6_trim_then_transform :
    ∀ (ls : List (List Char)), replLines ls = (ls.map pyStrip).filterMap trimThenX := by
  intro ls
  induction ls with
  | nil => rfl
  | cons l ls ih =>
    simp only [replLines, List.map_cons, List.filterMap_cons, trimThenX]
    split_ifs <;> simp [ih]

/-- The failing input for the shell-remediation claim: a single bash-tagged
block installing a package. -/
def doc7 : List Char := sl "```bash\npip install requests\n```"

/-- Claim C7: converting `doc7` yields exactly one shell cell, whose first
source element is the anchor comment and whose second is the `%%bash` magic;
`process_shell_commands` leaves it untouched (its guard tests the FIRST
source element for the magic, but the anchor comment occupies that slot),
so no package-install remediation comment is ever added. -/
theorem C7_remediation_never_fires :
    parse_markdown_file (sl "README.md") doc7 =
      [shellCell (sl "README.md") 1 (sl "pip install requests")] ∧
    process_shell_commands (parse_markdown_file (sl "README.md") doc7) =
      parse_markdown_file (sl "README.md") doc7 ∧
    ((parse_markdown_file (sl "README.md") doc7).headD dCell).source.contains
      (sl "# Install Python package\n") = false ∧
    ((parse_markdown_file (sl "README.md") doc7).headD dCell).source.headD [] =
      sl "# [source:README.md:1]\n" := by
  decide

/-- Claim C9: for every execution oracle and cell list, `validate_notebook`
returns `true` exactly when executing the filtered notebook succeeds and
`false` exactly when it raises; the exception is absorbed into the boolean
and never propagated (the function is total). -/
theorem C9_boolean_result :
    ∀ (exec : List Cell → Except (List Char) Unit) (cells : List Cell),
      (validate_notebook exec cells = true ↔ exec (filterCells cells) = Except.ok ()) ∧
      (validate_notebook exec cells = false ↔ (exec (filterCells cells)).isOk = false) := by
  intro exec cells
  rcases h : exec (filterCells cells) with u | e
  · constructor
    · simp [validate_notebook, h]
    · simp [validate_notebook, h, Except.isOk, Except.toBool]
  · constructor
    · simp [validate_notebook, h]
    · simp [validate_notebook, h, Except.isOk, Except.toBool]

theorem mem_impIf (name cc x : List Char) :
    x ∈ impIf name cc ↔
      x = sl "import " ++ name ++ sl "\n" ∧
      listHas (name ++ sl ".") cc = true ∧ listHas (sl "import " ++ name) cc = false := by
  unfold impIf
  split_ifs with h <;> simp_all

theorem mem_objLines (cc x : List Char) (h : x ∈ objLines cc) :
    x = sl "obj = requests  # Example object for inspection\n" := by
  unfold objLines at h
  split_ifs at h <;> simp_all

theorem mem_pkgImportLines (cc x : List Char) (h : x ∈ pkgImportLines cc) :
    x ∈ [sl "try:\n", sl "    import pkg_resources\n", sl "except ImportError:\n",
      sl "    print(\"pkg_resources not available - skipping package introspection\")\n",
      sl "    pkg_resources = None\n"] := by
  unfold pkgImportLines at h
  split_ifs at h <;> simp_all

/-- Claim C8: for each module name in the fixed remediation set, the
synthesized import line occurs among the lines prepended to a python code
cell exactly when the body mentions the dotted module name and does not
already contain the plain import statement (both as substring tests, as in
the source).  The other remediation lines (the `obj` placeholder and the
`pkg_resources` guard) never coincide with these import lines, and only the
`codeCell` constructor ever prepends `importLines`. -/
theorem C8_import_remediation :
    ∀ (cc m : List Char),
      m = sl "os" ∨ m = sl "sys" ∨ m = sl "requests" ∨ m = sl "inspect" →
      ((sl "import " ++ m ++ sl "\n") ∈ importLines cc ↔
        listHas (m ++ sl ".") cc = true ∧ listHas (sl "import " ++ m) cc = false) := by
  intro cc m hm
  have hobj : ∀ x, x ∈ objLines cc → x = sl "obj = requests  # Example object for inspection\n" :=
    fun x => mem_objLines cc x
  have hpkg := mem_pkgImportLines cc
  rcases hm with rfl | rfl | rfl | rfl <;>
  · constructor
    · intro hx
      simp only [importLines, List.mem_append, mem_impIf] at hx
      rcases hx with ((((h | h) | h) | h) | h) | h <;>
        first
          | exact ⟨h.2.1, h.2.2⟩
          | exact absurd h.1 (by decide)
          | exact absurd (hobj _ h) (by decide)
          | exact absurd (hpkg _ h) (by decide)
    · intro hc
      unfold importLines
      first
        | exact List.mem_append_left _ (List.mem_append_left _ (List.mem_append_left _
            (List.mem_append_left _ (List.mem_append_left _
              ((mem_impIf _ _ _).mpr ⟨rfl, hc.1, hc.2⟩)))))
        | exact List.mem_append_left _ (List.mem_append_left _ (List.mem_append_left _
            (List.mem_append_left _ (List.mem_append_right _
              ((mem_impIf _ _ _).mpr ⟨rfl, hc.1, hc.2⟩)))))
        | exact List.mem_append_left _ (List.mem_append_left _ (List.mem_append_left _
            (List.mem_append_right _ ((mem_impIf _ _ _).mpr ⟨rfl, hc.1, hc.2⟩))))
        | exact List.mem_append_left _ (List.mem_append_left _
            (List.mem_append_right _ ((mem_impIf _ _ _).mpr ⟨rfl, hc.1, hc.2⟩)))

theorem C8_import_remediation_witness :
    (sl "import " ++ sl "os" ++ sl "\n") ∈ importLines (sl "print(os.getcwd())") :=
  (C8_import_remediation (sl "print(os.getcwd())") (sl "os")
    (Or.inl rfl)).mpr (by decide)

/-- Claim C10: `process_shell_commands` preserves the number and order of
cells; for the cell at each index it preserves the cell type, the metadata
(source line and anchor), the execution count and the outputs, and any cell
that is not a code cell whose first source element starts with the shell
magic is returned entirely unchanged. -/
theorem C10_shell_processing_frame :
    ∀ (cells : List Cell) (i : Nat) (c : Cell),
      cells.get? i = some c →
      (process_shell_commands cells).length = cells.length ∧
      (process_shell_commands cells).get? i = some (enhanceShellCell c) ∧
      (enhanceShellCell c).cell_type = c.cell_type ∧
      (enhanceShellCell c).source_line = c.source_line ∧
      (enhanceShellCell c).anchor = c.anchor ∧
      (enhanceShellCell c).execution_count = c.execution_count ∧
      (enhanceShellCell c).outputs = c.outputs ∧
      ((c.cell_type = sl "code" ∧ c.source.isEmpty = false ∧
          listStarts (sl "%%bash") (c.source.headD []) = true) ∨
        enhanceShellCell c = c) := by
  intro cells i c h
  have h2 : (process_shell_commands cells).get? i = some (enhanceShellCell c) := by
    rw [List.get?_eq_getElem?] at h ⊢
    simp [process_shell_commands, List.getElem?_map, h]
  refine ⟨by simp [process_shell_commands], h2, ?_, ?_, ?_, ?_, ?_, ?_⟩
  all_goals unfold enhanceShellCell
  all_goals split_ifs
  all_goals first
    | rfl
    | exact Or.inl (by assumption)
    | exact Or.inr rfl

/-- A concrete shell cell whose first source element is the magic. -/
def c10c : Cell :=
  { cell_type := sl "code", source_line := 4, anchor := sl "README.md:4",
    execution_count := none, outputs := [],
    source := [sl "%%bash\n", sl "pip install requests\n"] }

theorem C10_shell_processing_frame_witness :
    (process_shell_commands [c10c]).length = [c10c].length ∧
    (process_shell_commands [c10c]).get? 0 = some (enhanceShellCell c10c) ∧
    (enhanceShellCell c10c).cell_type = c10c.cell_type ∧
    (enhanceShellCell c10c).source_line = c10c.source_line ∧
    (enhanceShellCell c10c).anchor = c10c.anchor ∧
    (enhanceShellCell c10c).execution_count = c10c.execution_count ∧
    (enhanceShellCell c10c).outputs = c10c.outputs ∧
    ((c10c.cell_type = sl "code" ∧ c10c.source.isEmpty = false ∧
        listStarts (sl "%%bash") (c10c.source.headD []) = true) ∨
      enhanceShellCell c10c = c10c) :=
  C10_shell_processing_frame [c10c] 0 c10c rfl
